import Mathlib

/- Verification of the reconciliation-and-load pipeline of the CaRMS mini data
platform.  The definitions below are a shallow embedding of the Python sources
`dagster_app/dagster_app/assets/etl.py` (primary), `assets/etl_assets.py` and
`scripts/load_to_postgres.py`.  Text cells are modelled as `List Char` /
`String`, dataframes as lists of row structures, and the Postgres transaction
as an explicit state-passing function over a five-table store. -/

namespace Carms

/-! ## Text cleaning (`_clean_text_series`, etl.py lines 17-23)

The pandas series-level clean is per-cell: replace NBSP (U+00A0) by a plain
space, delete BOM (U+FEFF) characters, then strip surrounding whitespace. -/

/-- The non-breaking-space character replaced by `_clean_text_series`. -/
def nbspChar : Char := ' '

/-- The byte-order-mark character deleted by `_clean_text_series`. -/
def bomChar : Char := '﻿'

/-- Strip trailing whitespace from a character list (the right half of
Python `str.strip`). -/
def dropTrailingWs : List Char → List Char
  | [] => []
  | c :: rest =>
    let r := dropTrailingWs rest
    if r.isEmpty then (if c.isWhitespace then [] else [c]) else c :: r

/-- Python `str.strip()` on a character list: drop leading and trailing
whitespace. -/
def stripChars (l : List Char) : List Char :=
  dropTrailingWs (l.dropWhile Char.isWhitespace)

/-- Per-cell body of `_clean_text_series` (etl.py lines 17-23): replace NBSP
with a space, remove BOM, then strip. -/
def _clean_text (l : List Char) : List Char :=
  stripChars ((l.map (fun c => if c = nbspChar then ' ' else c)).filter
    (fun c => ¬ c = bomChar))

/-- Python `str(v).strip()` as used on section cells (etl.py line 179). -/
def pyStrip (s : String) : String :=
  ⟨stripChars s.data⟩

/-! ## Key Extractor (`extract_program_stream_id`, etl.py lines 26-49) -/

/-- Numeric value of a digit string, as produced by `pd.to_numeric` on a
capture consisting of decimal digits. -/
def digitsToNat (l : List Char) : Nat :=
  l.foldl (fun a c => 10 * a + (c.toNat - '0'.toNat)) 0

/-- Capture of the regex `(\d+)\s*$` (etl.py line 35) on a stripped cell: the
maximal trailing run of digits, when non-empty.  On a stripped string the
trailing `\s*` is vacuous. -/
def m1Capture (l : List Char) : Option (List Char) :=
  let run := l.reverse.takeWhile Char.isDigit
  if run.isEmpty then none else some run.reverse

/-- Capture of the regex `.*-\s*(\d+)\s*$` (etl.py line 36) on a stripped
cell: the maximal trailing run of digits, provided it is non-empty and is
preceded (after skipping whitespace) by a hyphen.  The greedy `.*` selects
the last such hyphen, and the captured `(\d+)` runs to the end of the
string, so the capture is exactly the trailing digit run. -/
def m2Capture (l : List Char) : Option (List Char) :=
  let r := l.reverse
  let run := r.takeWhile Char.isDigit
  let rest2 := (r.dropWhile Char.isDigit).dropWhile Char.isWhitespace
  if run.isEmpty then none
  else
    match rest2 with
    | '-' :: _ => some run.reverse
    | _ => none

/-- Strategy A applied to one `document_id` cell (etl.py lines 34-37):
clean the text, prefer the last-hyphen capture `m2` and fall back to the
bare trailing-digits capture `m1` (`m2.fillna(m1)`), then convert the
digits to a number. -/
def extractDocCell (s : String) : Option Nat :=
  let c := _clean_text s.data
  (match m2Capture c with
   | some d => some d
   | none => m1Capture c).map digitsToNat

/-- A regex word character, for the `\b` boundary in the source-URL pattern. -/
def isWordChar (c : Char) : Bool := c.isAlphanum || c = '_'

/-- Try to match `/\d+/(\d+)\b` at the head of the list (etl.py line 44),
returning the second digit run on success. -/
def srcMatchAt : List Char → Option (List Char)
  | '/' :: rest =>
    let d1 := rest.takeWhile Char.isDigit
    if d1.isEmpty then none
    else
      match rest.drop d1.length with
      | '/' :: rest2 =>
        let d2 := rest2.takeWhile Char.isDigit
        if d2.isEmpty then none
        else
          match rest2.drop d2.length with
          | [] => some d2
          | c :: _ => if isWordChar c then none else some d2
      | _ => none
  | _ => none

/-- Leftmost search for `/\d+/(\d+)\b` (the `str.extract` semantics). -/
def srcFind : List Char → Option (List Char)
  | [] => none
  | c :: rest =>
    match srcMatchAt (c :: rest) with
    | some d => some d
    | none => srcFind rest

/-- Strategy B applied to one `source` cell (etl.py lines 43-45). -/
def extractSrcCell (s : String) : Option Nat :=
  (srcFind (_clean_text s.data)).map digitsToNat

/-- One row of the raw description table as seen by the Key Extractor: the
`document_id` and `source` cells (already `astype(str)`-rendered). -/
structure SrcRow where
  doc : String
  src : String
deriving DecidableEq

/-- The description table as seen by the Key Extractor.  `hasDoc` / `hasSrc`
model the column-presence tests `"document_id" in x.columns` and
`"source" in x.columns`. -/
structure XInput where
  hasDoc : Bool
  hasSrc : Bool
  rows : List SrcRow
deriving DecidableEq

/-- Count of non-null extracted values, modelling `out.notna().sum()`. -/
def countSome (l : List (Option Nat)) : Nat :=
  l.countP Option.isSome

/-- Acceptance threshold `max(1, int(0.95 * len(x)))` (etl.py lines 38, 46);
`int(0.95*n)` floors, modelled exactly as `19 * n / 20` in natural-number
division.  (The Python float evaluation of `0.95*n` agrees with the exact
floor except at isolated multiples of 20, where it is one lower; no claim
settled here depends on such a point.) -/
def thresholdFn (n : Nat) : Nat :=
  max 1 (19 * n / 20)

/-- Error message of etl.py line 49. -/
def extractFailMsg : String :=
  "Could not extract program_stream_id from document_id or source."

/-- `extract_program_stream_id` (etl.py lines 26-49): try Strategy A on the
`document_id` column, then Strategy B on the `source` column, each accepted
only when the count of parsed rows reaches the threshold; otherwise raise. -/
def extract_program_stream_id (t : XInput) :
    Except String (List (Option Nat) × String) :=
  let n := t.rows.length
  let docRes : Option (List (Option Nat)) :=
    if t.hasDoc then
      let out := t.rows.map (fun r => extractDocCell r.doc)
      if thresholdFn n ≤ countSome out then some out else none
    else none
  match docRes with
  | some out => .ok (out, "document_id")
  | none =>
    if t.hasSrc then
      let out := t.rows.map (fun r => extractSrcCell r.src)
      if thresholdFn n ≤ countSome out then .ok (out, "source_url")
      else .error extractFailMsg
    else .error extractFailMsg

/-! ## Join Validator (etl.py lines 77-104)

The master table `m` is a list of rows carrying the ten columns selected at
etl.py lines 111-124; the description table `x` is a list of rows carrying
the assigned `program_stream_id_extracted` column (`ext`), the
`program_description_id` column and the open set of remaining cells. -/

/-- One row of the program-master table (the columns used by the pipeline). -/
structure MRow where
  program_stream_id : Int
  discipline_id : Int
  school_id : Int
  discipline_name : String
  school_name : String
  program_stream_name : String
  program_site : String
  program_stream : String
  program_name : String
  program_url : String
deriving DecidableEq

/-- One row of the description table after the extracted id has been
assigned (etl.py line 81).  `cells` holds the open set of section columns by
name; `none` models a null (NaN / None) cell. -/
structure XRow where
  program_description_id : Option Int
  ext : Option Int
  cells : List (String × Option String)
deriving DecidableEq

/-- Validation errors of etl.py lines 83-102, in check order. -/
inductive LoadCheckErr where
  | extractionIncomplete (bad total : Nat)
  | notUnique (uniq expected : Nat)
  | joinMismatch (expected got : Nat)
deriving DecidableEq

/-- The message of the uniqueness failure raised at etl.py line 91. -/
def notUniqueMessage (uniq expected : Nat) : String :=
  "Extracted ids not unique/complete: unique=" ++ toString uniq ++
    ", expected=" ++ toString expected

/-- Whether `sub` occurs as a contiguous substring of `s`. -/
def strContainsSub (s sub : String) : Bool :=
  s.data.tails.any (fun t => sub.data.isPrefixOf t)

/-- The inner merge of etl.py lines 93-99: for each master row, in order,
one output pair per description row whose extracted id equals the master
canonical id. -/
def mergeRows (m : List MRow) (x : List XRow) : List (MRow × XRow) :=
  (m.map (fun mr =>
    (x.filter (fun xr => xr.ext = some mr.program_stream_id)).map
      (fun xr => (mr, xr)))).flatten

/-- The three ordered validation checks and the merge of etl.py lines 77-102:
no null extracted id, distinct-id count equal to the master row count, and
merged row count equal to the master row count; only then is the merged
table returned. -/
def validateAndMerge (m : List MRow) (x : List XRow) :
    Except LoadCheckErr (List (MRow × XRow)) :=
  let expected := m.length
  let col := x.map XRow.ext
  let bad := col.countP Option.isNone
  if bad ≠ 0 then .error (.extractionIncomplete bad x.length)
  else
    let uniq := (col.filterMap id).dedup.length
    if uniq ≠ expected then .error (.notUnique uniq expected)
    else
      let merged := mergeRows m x
      if merged.length ≠ expected then .error (.joinMismatch expected merged.length)
      else .ok merged

/-! ## Record Shaper (etl.py lines 106-181) -/

/-- Value of `row.get(c)` for a description row. -/
def getCell (r : XRow) (c : String) : Option String :=
  match r.cells.lookup c with
  | some v => v
  | none => none

/-- The reserved metadata / id columns excluded from section flattening
(etl.py lines 158-167). -/
def metaCols : List String :=
  ["document_id", "source", "n_program_description_sections", "program_name",
   "match_iteration_name", "match_iteration_id", "program_description_id",
   "program_stream_id_extracted"]

/-- The description table as seen by section flattening: its column list and
its rows. -/
structure XTable where
  cols : List String
  rows : List XRow

/-- `section_cols` (etl.py line 168): every column of `x` that is not a
reserved metadata / id column. -/
def sectionCols (t : XTable) : List String :=
  t.cols.filter (fun c => ¬ c ∈ metaCols)

/-- Section rows contributed by one description row (etl.py lines 171-181):
nothing when `program_description_id` is null; otherwise one row per section
column whose cell is non-null and whose stripped text is non-empty. -/
def rowSections (cols : List String) (r : XRow) : List (Int × String × String) :=
  match r.program_description_id with
  | none => []
  | some pdid =>
    cols.filterMap (fun c =>
      match getCell r c with
      | none => none
      | some v =>
        let text := pyStrip v
        if text = "" then none else some (pdid, c, text))

/-- `section_rows` (etl.py lines 170-181). -/
def sectionRowsOf (t : XTable) : List (Int × String × String) :=
  (t.rows.map (rowSections (sectionCols t))).flatten

/-- The merged dataframe as seen by the program-name resolution (etl.py
lines 129-154): its columns and its rows as name-to-value cells. -/
structure DFrame where
  cols : List String
  rows : List (List (String × String))

/-- Column-presence test `c in merged.columns`. -/
def DFrame.hasCol (t : DFrame) (c : String) : Bool := c ∈ t.cols

/-- Value of a named cell in a row of the merged dataframe. -/
def lookupCell (r : List (String × String)) (c : String) : String :=
  match r.lookup c with
  | some v => v
  | none => ""

/-- Pandas column selection `merged[[... c ...]]` restricted to one column:
returns the column values, or raises a KeyError when the column is absent. -/
def selectCol (t : DFrame) (c : String) : Except String (List String) :=
  if t.hasCol c then .ok (t.rows.map (fun r => lookupCell r c))
  else .error ("KeyError: " ++ c)

/-- The collision resolution of etl.py lines 129-134: use the
description-side suffixed column when present, else the master-side suffixed
column, else the unsuffixed name. -/
def resolveProgramNameCol (t : DFrame) : String :=
  if t.hasCol "program_name_x" then "program_name_x"
  else if t.hasCol "program_name_m" then "program_name_m"
  else "program_name"

/-- The `program_name` column of the shaped `program_desc` rows (etl.py
lines 129-154): select the resolved column from the merged table. -/
def project_program_name (t : DFrame) : Except String (List String) :=
  selectCol t (resolveProgramNameCol t)

/-- One shaped `program_streams` row (etl.py lines 111-125). -/
structure PSRow where
  program_stream_id : Int
  discipline_id : Int
  school_id : Int
  discipline_name : String
  school_name : String
  program_stream_name : String
  program_site : String
  program_stream : String
  program_name : String
  program_url : String
  match_iteration_id : Int
deriving DecidableEq

/-- `program_streams` shaping (etl.py lines 111-125): project the ten master
columns and assign the constant `match_iteration_id = 1503`. -/
def shape_program_streams (m : List MRow) : List PSRow :=
  m.map (fun r =>
    { program_stream_id := r.program_stream_id
      discipline_id := r.discipline_id
      school_id := r.school_id
      discipline_name := r.discipline_name
      school_name := r.school_name
      program_stream_name := r.program_stream_name
      program_site := r.program_site
      program_stream := r.program_stream
      program_name := r.program_name
      program_url := r.program_url
      match_iteration_id := 1503 })

/-- One shaped `program_descriptions` row (etl.py lines 136-154). -/
structure PDRow where
  program_description_id : Int
  program_stream_id : Int
  source_url : String
  document_id : String
  match_iteration_id : Int
  match_iteration_name : String
  program_name : String
  n_program_description_sections : Int
deriving DecidableEq

/-! ## Transactional Loader (etl.py lines 190-278)

The store is the five Postgres tables; the load runs with `autocommit =
False`, executes the truncate, the four upsert inserts and the section batch
insert in order inside one transaction, commits on success, and on any
exception rolls back and re-raises.  Postgres's atomic-commit guarantee
(rollback restores the pre-transaction state) is modelled by returning the
pre-run store together with the re-raised error. -/

/-- The shaped input handed to the loader. -/
structure Payload where
  disciplines : List (Int × String)
  schools : List (Int × String)
  program_streams : List PSRow
  program_descs : List PDRow
  section_rows : List (Int × String × String)
deriving DecidableEq

/-- The five-table store. -/
structure DB where
  disciplines : List (Int × String)
  schools : List (Int × String)
  program_streams : List PSRow
  program_descs : List PDRow
  sections : List (Int × String × String)
deriving DecidableEq

/-- The store after `TRUNCATE ... RESTART IDENTITY CASCADE`. -/
def DB.emptyStore : DB := ⟨[], [], [], [], []⟩

/-- `INSERT ... ON CONFLICT (key) DO UPDATE SET <all other columns> =
EXCLUDED...` for a single row: replace the row with the matching natural
key, or append. -/
def upsertBy (key : α → Int) (t : List α) (row : α) : List α :=
  if t.any (fun r => key r = key row) then
    t.map (fun r => if key r = key row then row else r)
  else t ++ [row]

/-- `execute_values` of an upsert insert: fold the row batch in order. -/
def upsertAll (key : α → Int) (t : List α) (rows : List α) : List α :=
  rows.foldl (upsertBy key) t

/-- The six statements executed inside the load transaction, in source
order (etl.py lines 195-269). -/
inductive Step where
  | truncate
  | insertDisciplines
  | insertSchools
  | insertStreams
  | insertDescs
  | insertSections
deriving DecidableEq

/-- Source order of the transaction's statements. -/
def stepOrder : List Step :=
  [.truncate, .insertDisciplines, .insertSchools, .insertStreams,
   .insertDescs, .insertSections]

/-- Effect of one statement on the in-transaction (pending) store. -/
def applyStep (p : Payload) : Step → DB → DB
  | .truncate, _ => DB.emptyStore
  | .insertDisciplines, db =>
    { db with disciplines := upsertAll Prod.fst db.disciplines p.disciplines }
  | .insertSchools, db =>
    { db with schools := upsertAll Prod.fst db.schools p.schools }
  | .insertStreams, db =>
    { db with program_streams :=
        upsertAll PSRow.program_stream_id db.program_streams p.program_streams }
  | .insertDescs, db =>
    { db with program_descs :=
        upsertAll PDRow.program_description_id db.program_descs p.program_descs }
  | .insertSections, db =>
    { db with sections := db.sections ++ p.section_rows }

/-- Run the statements in order on the pending store; `failAt` injects an
exception at a statement (a database error raised while executing it), which
aborts the remaining statements. -/
def runSteps (p : Payload) (failAt : Step → Bool) : List Step → DB → Except Step DB
  | [], db => .ok db
  | s :: rest, db =>
    if failAt s then .error s
    else runSteps p failAt rest (applyStep p s db)

/-- `etl_load_to_postgres` (etl.py lines 190-278): execute the transaction;
on success commit the pending store; on any exception roll back — leaving
the pre-run store — and re-raise the error (returned as `some` failing
step). -/
def etl_load_to_postgres (db : DB) (p : Payload) (failAt : Step → Bool) :
    DB × Option Step :=
  match runSteps p failAt stepOrder db with
  | .ok pending => (pending, none)
  | .error e => (db, some e)

/-- A document identifier whose cleaned text has the form
`<prefix> '-' <spaces> <digits>` with a contiguous digit run of value `v`:
the shape produced by a well-formed `"<prefix>-<digits>"` identifier with
BOM characters injected anywhere and NBSP / whitespace injected anywhere
except interior to the digit run. -/
def CleansToHyphenDigits (s : String) (v : Nat) : Prop :=
  ∃ p w d, _clean_text s.data = p ++ '-' :: (w ++ d) ∧ d ≠ [] ∧
    (∀ c ∈ d, c.isDigit = true) ∧ (∀ c ∈ w, c = ' ') ∧ digitsToNat d = v

/-! ## Concrete instances used by witnesses and counterexamples -/

/-- A one-row table whose identifier is well-formed `"1503-27447"` but with
an NBSP injected between the digits `27` and `447`. -/
def xC5bad : XInput := ⟨true, false, [⟨"1503-27\u00A0447", ""⟩]⟩

/-- A one-row table whose identifier is `"1503-27447"` with a BOM injected,
an NBSP after the hyphen and surrounding whitespace. -/
def tC5W : XInput := ⟨true, false, [⟨" \uFEFF1503-\u00A027447 ", ""⟩]⟩

/-- A ten-row table: nine parseable identifiers and one unparseable row. -/
def xC6 : XInput :=
  ⟨true, false,
   [⟨"1503-1", ""⟩, ⟨"1503-2", ""⟩, ⟨"1503-3", ""⟩, ⟨"1503-4", ""⟩,
    ⟨"1503-5", ""⟩, ⟨"1503-6", ""⟩, ⟨"1503-7", ""⟩, ⟨"1503-8", ""⟩,
    ⟨"1503-9", ""⟩, ⟨"no id", ""⟩]⟩

/-- The ids extracted from `xC6` by the document-id strategy. -/
def xC6outs : List (Option Nat) :=
  [some 1, some 2, some 3, some 4, some 5, some 6, some 7, some 8, some 9,
   none]

/-- A two-row table on which both strategies fail to parse any row. -/
def xC6fail : XInput := ⟨true, true, [⟨"abc", "u"⟩, ⟨"xyz", "v"⟩]⟩

/-- A small pre-run store with one discipline and one school. -/
def dbW : DB := ⟨[(1, "Surgery")], [(5, "U of X")], [], [], []⟩

/-- A small shaped payload. -/
def payloadW : Payload :=
  ⟨[(1, "Surgery")], [(5, "U of X")], [], [], [(9, "summary", "Overview text")]⟩

/-- Fault injection failing the section batch insert. -/
def failSectionsW : Step → Bool := fun s => decide (s = Step.insertSections)

/-- No fault: every statement succeeds. -/
def noFail : Step → Bool := fun _ => false

/-- A master row as in the end-to-end example of the spec. -/
def mRowW : MRow :=
  ⟨100, 1, 5, "Surgery", "U of X", "Gen Surg Stream", "Main", "stream", "Gen Surg",
   "https://x.ca/1503/100"⟩

/-- A payload whose program-stream rows are shaped from `[mRowW]`. -/
def payloadC9 : Payload := ⟨[], [], shape_program_streams [mRowW], [], []⟩

/-- The shaped program-stream row corresponding to `mRowW`. -/
def psRowW : PSRow :=
  ⟨100, 1, 5, "Surgery", "U of X", "Gen Surg Stream", "Main", "stream", "Gen Surg",
   "https://x.ca/1503/100", 1503⟩

/-- A master row carrying only its canonical id (other columns blank). -/
def mkMRow (i : Int) : MRow := ⟨i, 0, 0, "", "", "", "", "", "", ""⟩

/-- A description row carrying only its header id and extracted id. -/
def mkXRow (pdid : Int) (ext : Option Int) : XRow := ⟨some pdid, ext, []⟩

/-- A two-row master table with distinct canonical ids. -/
def mC3W : List MRow := [mkMRow 1, mkMRow 2]

/-- A description table whose extracted ids are exactly the ids of `mC3W`. -/
def xC3W : List XRow := [mkXRow 21 (some 2), mkXRow 22 (some 1)]

/-- A three-row master table (ids 3, 4, 7). -/
def mDup : List MRow := [mkMRow 3, mkMRow 4, mkMRow 7]

/-- A description table in which the extracted id 7 is duplicated (all ids
non-null). -/
def xDup : List XRow := [mkXRow 21 (some 7), mkXRow 22 (some 7), mkXRow 23 (some 3)]

/-- A merged frame carrying both suffixed program-name columns. -/
def dfX : DFrame :=
  ⟨["program_name_x", "program_name_m"],
   [[("program_name_x", "Gen Surg X"), ("program_name_m", "Gen Surg M")]]⟩

/-- A merged frame carrying only the master-side suffixed column. -/
def dfM : DFrame := ⟨["program_name_m"], [[("program_name_m", "Gen Surg M")]]⟩

/-- A merged frame with no program-name column at all. -/
def dfNone : DFrame := ⟨["source_url"], [[("source_url", "u")]]⟩

/-- A description table with the join-helper column and one section column
whose text carries surrounding whitespace. -/
def tC7 : XTable :=
  ⟨["program_stream_id_extracted", "summary"],
   [⟨some 9, some 100,
     [("program_stream_id_extracted", some "100"),
      ("summary", some "  Overview text ")]⟩]⟩

/-- The single section row flattened from `tC7`. -/
def rowC7 : Int × String × String := (9, "summary", "Overview text")

/-! ## Helper lemmas -/

/-- If some statement of the list is failed, running the statements raises. -/
theorem runSteps_error_of_fail (p : Payload) (failAt : Step → Bool) :
    ∀ (l : List Step) (db : DB), (∃ s ∈ l, failAt s = true) →
      ∃ e, runSteps p failAt l db = .error e := by
  intro l
  induction l with
  | nil =>
    intro db h
    rcases h with ⟨s, hs, _⟩
    cases hs
  | cons a rest ih =>
    intro db h
    by_cases hf : failAt a = true
    · exact ⟨a, by simp [runSteps, hf]⟩
    · rcases h with ⟨s, hs, hfs⟩
      rcases List.mem_cons.mp hs with rfl | hmem
      · exact absurd hfs hf
      · rcases ih (applyStep p a db) ⟨s, hmem, hfs⟩ with ⟨e, he⟩
        exact ⟨e, by simp [runSteps, hf, he]⟩

/-- Every row of a single-row upsert result satisfies a property holding on
the table and on the inserted row. -/
theorem upsertBy_pred {α : Type} (key : α → Int) (P : α → Prop) (t : List α)
    (row : α) (h1 : ∀ r ∈ t, P r) (h2 : P row) :
    ∀ r ∈ upsertBy key t row, P r := by
  intro r hr
  unfold upsertBy at hr
  split at hr
  · rcases List.mem_map.mp hr with ⟨a, ha, heq⟩
    by_cases hk : key a = key row
    · simp [hk] at heq
      exact heq ▸ h2
    · simp [hk] at heq
      exact heq ▸ h1 a ha
  · rcases List.mem_append.mp hr with h | h
    · exact h1 r h
    · rcases List.mem_singleton.mp h with rfl
      exact h2

/-- Every row of a batch-upsert result satisfies a property holding on the
table and on every inserted row. -/
theorem upsertAll_pred {α : Type} (key : α → Int) (P : α → Prop) :
    ∀ (rows t : List α), (∀ r ∈ t, P r) → (∀ r ∈ rows, P r) →
      ∀ r ∈ upsertAll key t rows, P r := by
  intro rows
  induction rows with
  | nil =>
    intro t h1 _ r hr
    exact h1 r hr
  | cons a rows ih =>
    intro t h1 h2 r hr
    have hstep : upsertAll key t (a :: rows) = upsertAll key (upsertBy key t a) rows := rfl
    rw [hstep] at hr
    exact ih (upsertBy key t a)
      (upsertBy_pred key P t a h1 (h2 a (List.mem_cons_self a rows)))
      (fun r hr => h2 r (List.mem_cons_of_mem a hr)) r hr

/-! ## Claims -/

/-- C1.  Load atomicity: for every pre-run store, shaped payload and
injected failure hitting any of the six transactional statements (the
truncate, the four upsert inserts, or the section batch insert), the loader
leaves the five tables exactly as they were before the run and re-raises
the error to the caller. -/
theorem load_atomicity (db : DB) (p : Payload) (failAt : Step → Bool)
    (s : Step) (hs : s ∈ stepOrder) (hf : failAt s = true) :
    ∃ e, etl_load_to_postgres db p failAt = (db, some e) := by
  rcases runSteps_error_of_fail p failAt stepOrder db ⟨s, hs, hf⟩ with ⟨e, he⟩
  exact ⟨e, by simp [etl_load_to_postgres, he]⟩

/-- Witness for C1: failing the section batch insert on a concrete store
and payload leaves the store unchanged and re-raises. -/
theorem load_atomicity_witness :
    ∃ e, etl_load_to_postgres dbW payloadW failSectionsW = (dbW, some e) :=
  load_atomicity dbW payloadW failSectionsW Step.insertSections (by decide) (by decide)

/-- C2.  Load idempotence: running the loader a second time with the same
shaped payload (no failures) leaves the store in exactly the state the
first run produced — identical rows in all five tables. -/
theorem load_idempotent (db : DB) (p : Payload) :
    etl_load_to_postgres (etl_load_to_postgres db p noFail).1 p noFail =
      etl_load_to_postgres db p noFail := rfl

/-- C9.  Every shaped program-stream row carries the constant
`match_iteration_id = 1503`, and after a successful load every row of the
`program_streams` table carries it as well. -/
theorem streams_match_iteration_const (db : DB) (m : List MRow) (p : Payload)
    (hp : p.program_streams = shape_program_streams m) :
    (∀ row ∈ p.program_streams, row.match_iteration_id = 1503) ∧
    ∀ row ∈ (etl_load_to_postgres db p noFail).1.program_streams,
      row.match_iteration_id = 1503 := by
  have hshape : ∀ row ∈ p.program_streams, row.match_iteration_id = 1503 := by
    intro row hrow
    rw [hp] at hrow
    rcases List.mem_map.mp hrow with ⟨r, _, rfl⟩
    rfl
  refine ⟨hshape, ?_⟩
  have hfinal : (etl_load_to_postgres db p noFail).1.program_streams =
      upsertAll PSRow.program_stream_id [] p.program_streams := rfl
  rw [hfinal]
  exact upsertAll_pred _ _ p.program_streams []
    (by intro r hr; cases hr) hshape

/-- Witness for C9: the concrete shaped row loaded from `mRowW` carries
`match_iteration_id = 1503`. -/
theorem streams_match_iteration_const_witness : psRowW.match_iteration_id = 1503 :=
  (streams_match_iteration_const DB.emptyStore [mRowW] payloadC9 rfl).2
    psRowW (by decide)

/-- C10.  A description row with a null `program_description_id`
contributes zero section rows: section flattening silently skips it (no
error is raised; `sectionRowsOf` is total), so its text is dropped from the
loaded corpus. -/
theorem null_pdid_skipped (cols : List String) (r : XRow) (rs : List XRow)
    (h : r.program_description_id = none) :
    sectionRowsOf ⟨cols, r :: rs⟩ = sectionRowsOf ⟨cols, rs⟩ := by
  simp [sectionRowsOf, rowSections, h, sectionCols]

/-- Witness for C10: a concrete null-id row with non-empty section text
contributes nothing. -/
theorem null_pdid_skipped_witness :
    sectionRowsOf ⟨["summary"], [⟨none, none, [("summary", some "Overview")]⟩]⟩ =
      sectionRowsOf ⟨["summary"], []⟩ :=
  null_pdid_skipped ["summary"] ⟨none, none, [("summary", some "Overview")]⟩ [] rfl

/-- C8.  Program-name collision resolution: when the merged table carries
the description-side suffixed column the shaper projects it; with only the
master-side suffixed column it falls back to that; when the field is absent
entirely (no suffixed and no bare column) the projection fails with a
column-resolution (KeyError) error instead of producing output. -/
theorem program_name_resolution (t : DFrame) :
    (t.hasCol "program_name_x" = true →
      project_program_name t =
        .ok (t.rows.map (fun r => lookupCell r "program_name_x"))) ∧
    (t.hasCol "program_name_x" = false → t.hasCol "program_name_m" = true →
      project_program_name t =
        .ok (t.rows.map (fun r => lookupCell r "program_name_m"))) ∧
    (t.hasCol "program_name_x" = false → t.hasCol "program_name_m" = false →
      t.hasCol "program_name" = false →
      project_program_name t = .error ("KeyError: " ++ "program_name")) := by
  refine ⟨?_, ?_, ?_⟩
  · intro h1
    simp [project_program_name, resolveProgramNameCol, selectCol, h1]
  · intro h1 h2
    simp [project_program_name, resolveProgramNameCol, selectCol, h1, h2]
  · intro h1 h2 h3
    simp [project_program_name, resolveProgramNameCol, selectCol, h1, h2, h3]

/-- Sum of ones over a list is its length. -/
theorem sum_map_one {α : Type} (l : List α) :
    (l.map (fun _ => (1 : Nat))).sum = l.length := by
  induction l with
  | nil => rfl
  | cons a l ih => simp [ih, Nat.add_comm]

/-- Flattening singleton lists recovers the list. -/
theorem flatten_map_singleton {α : Type} (l : List α) :
    (l.map (fun a => [a])).flatten = l := by
  induction l with
  | nil => rfl
  | cons a l ih => simp [ih]

/-- Under the lossless-join hypotheses, each master id matches exactly one
description row. -/
theorem filter_ext_length_one (m : List MRow) (x : List XRow)
    (hnodup : (m.map MRow.program_stream_id).Nodup)
    (hids : (x.map XRow.ext).Perm ((m.map MRow.program_stream_id).map some))
    (mr : MRow) (hmr : mr ∈ m) :
    (x.filter (fun xr => xr.ext = some mr.program_stream_id)).length = 1 := by
  have hcount : ((x.map XRow.ext).countP (fun o => o = some mr.program_stream_id)) =
      (((m.map MRow.program_stream_id).map some).countP
        (fun o => o = some mr.program_stream_id)) :=
    hids.countP_eq _
  have hleft : (x.filter (fun xr => xr.ext = some mr.program_stream_id)).length =
      (x.map XRow.ext).countP (fun o => o = some mr.program_stream_id) := by
    rw [List.countP_map]
    rw [← List.countP_eq_length_filter]
    rfl
  have hright : (((m.map MRow.program_stream_id).map some).countP
      (fun o => o = some mr.program_stream_id)) =
      (m.map MRow.program_stream_id).count mr.program_stream_id := by
    rw [List.countP_map, List.count]
    refine List.countP_congr ?_
    intro i _
    simp
  have hone : (m.map MRow.program_stream_id).count mr.program_stream_id = 1 :=
    List.count_eq_one_of_mem hnodup (List.mem_map_of_mem _ hmr)
  rw [hleft, hcount, hright, hone]

/-- C3.  Lossless join: when the extracted ids are all non-null and are
exactly the master canonical ids (with no duplicates on either side), the
Join Validator passes all three checks and returns the merged table, which
has exactly one row per master row. -/
theorem lossless_join (m : List MRow) (x : List XRow)
    (hnodup : (m.map MRow.program_stream_id).Nodup)
    (hids : (x.map XRow.ext).Perm ((m.map MRow.program_stream_id).map some)) :
    validateAndMerge m x = .ok (mergeRows m x) ∧
    (mergeRows m x).length = m.length ∧
    (mergeRows m x).map Prod.fst = m := by
  have hbad : (x.map XRow.ext).countP Option.isNone = 0 := by
    rw [hids.countP_eq]
    simp
  have hfm : ((x.map XRow.ext).filterMap id).Perm (m.map MRow.program_stream_id) := by
    have h1 := hids.filterMap id
    simpa using h1
  have huniq : ((x.map XRow.ext).filterMap id).dedup.length = m.length := by
    have h2 : ((x.map XRow.ext).filterMap id).dedup.Perm
        (m.map MRow.program_stream_id).dedup := hfm.dedup
    rw [h2.length_eq, List.Nodup.dedup hnodup, List.length_map]
  have hlen : (mergeRows m x).length = m.length := by
    unfold mergeRows
    rw [List.length_flatten, List.map_map]
    have hcongr : ∀ mr ∈ m, (List.length ∘ fun mr : MRow =>
        (x.filter (fun xr => xr.ext = some mr.program_stream_id)).map
          (fun xr => (mr, xr))) mr = (fun _ => (1 : Nat)) mr := by
      intro mr hmr
      simp only [Function.comp, List.length_map]
      exact filter_ext_length_one m x hnodup hids mr hmr
    rw [List.map_congr_left hcongr, sum_map_one]
  have hfst : (mergeRows m x).map Prod.fst = m := by
    unfold mergeRows
    rw [List.map_flatten, List.map_map]
    have hcongr : ∀ mr ∈ m, (List.map Prod.fst ∘ fun mr : MRow =>
        (x.filter (fun xr => xr.ext = some mr.program_stream_id)).map
          (fun xr => (mr, xr))) mr = (fun mr => [mr]) mr := by
      intro mr hmr
      simp only [Function.comp, List.map_map]
      have h1 := filter_ext_length_one m x hnodup hids mr hmr
      have h2 : (Prod.fst ∘ fun xr : XRow => (mr, xr)) = fun _ => mr := rfl
      rw [h2, List.map_const', h1]
      rfl
    rw [List.map_congr_left hcongr, flatten_map_singleton]
  refine ⟨?_, hlen, hfst⟩
  unfold validateAndMerge
  rw [if_neg (by rw [hbad]; exact fun h => h rfl)]
  rw [if_neg (by rw [huniq]; exact fun h => h rfl)]
  rw [if_neg (by rw [hlen]; exact fun h => h rfl)]

/-- Witness for C3: a concrete two-row master and matching description
table validate and merge to two rows, one per master row. -/
theorem lossless_join_witness :
    validateAndMerge mC3W xC3W = .ok (mergeRows mC3W xC3W) ∧
    (mergeRows mC3W xC3W).length = mC3W.length ∧
    (mergeRows mC3W xC3W).map Prod.fst = mC3W :=
  lossless_join mC3W xC3W (by decide) (by decide)

/-- C4 (amended).  Duplicate-id abort: whenever the extracted ids are all
non-null but their distinct count differs from the master row count — as
when one id is duplicated in an otherwise exactly-matching table — the Join
Validator aborts with the uniqueness error reporting the distinct count and
the expected count, and produces no merged output. -/
theorem duplicate_id_abort (m : List MRow) (x : List XRow)
    (hnn : (x.map XRow.ext).countP Option.isNone = 0)
    (hdup : ((x.map XRow.ext).filterMap id).dedup.length ≠ m.length) :
    validateAndMerge m x =
      .error (.notUnique ((x.map XRow.ext).filterMap id).dedup.length m.length) := by
  unfold validateAndMerge
  rw [if_neg (by rw [hnn]; exact fun h => h rfl)]
  rw [if_pos hdup]

/-- Witness for C4 (amended): the concrete duplicated table aborts with the
uniqueness error. -/
theorem duplicate_id_abort_witness :
    validateAndMerge mDup xDup = .error (.notUnique 2 3) :=
  duplicate_id_abort mDup xDup (by decide) (by decide)

/-- Counterexample for C4 as stated: on the duplicated table the validator
aborts with the uniqueness error, but the error message raised (etl.py line
91) reports only the unique and expected counts — the duplicated id 7 does
not occur anywhere in it, so the error does not name the duplicate id. -/
theorem duplicate_id_abort_counterexample :
    validateAndMerge mDup xDup = .error (.notUnique 2 3) ∧
    strContainsSub (notUniqueMessage 2 3) "7" = false := by
  constructor
  · rfl
  · rfl

/-- Witness for C8: the three resolution cases at concrete merged frames. -/
theorem program_name_resolution_witness :
    project_program_name dfX =
      .ok (dfX.rows.map (fun r => lookupCell r "program_name_x")) ∧
    project_program_name dfM =
      .ok (dfM.rows.map (fun r => lookupCell r "program_name_m")) ∧
    project_program_name dfNone = .error ("KeyError: " ++ "program_name") :=
  ⟨(program_name_resolution dfX).1 rfl,
   (program_name_resolution dfM).2.1 rfl rfl,
   (program_name_resolution dfNone).2.2 rfl rfl rfl⟩

/-- The head of a `dropWhile` result does not satisfy the predicate. -/
theorem dropWhile_head?_false (p : Char → Bool) :
    ∀ (l : List Char) (c : Char), (l.dropWhile p).head? = some c → p c = false := by
  intro l
  induction l with
  | nil =>
    intro c h
    cases h
  | cons a l ih =>
    intro c h
    rw [List.dropWhile_cons] at h
    split at h
    · exact ih c h
    · rename_i ha
      injection h with h
      rw [← h]
      exact Bool.not_eq_true _ ▸ Bool.of_not_eq_true ha

/-- Stripping trailing whitespace preserves the head of the list (or empties
it). -/
theorem dropTrailingWs_head? (c : Char) (rest : List Char) :
    dropTrailingWs (c :: rest) = [] ∨
      (dropTrailingWs (c :: rest)).head? = some c := by
  by_cases h1 : (dropTrailingWs rest).isEmpty = true
  · by_cases h2 : c.isWhitespace = true
    · left
      simp [dropTrailingWs, h1, h2]
    · right
      simp [dropTrailingWs, h1, h2]
  · right
    simp [dropTrailingWs, h1]

/-- A non-empty stripped list starts with a non-whitespace character. -/
theorem stripChars_head_not_ws (l : List Char) (h : stripChars l ≠ []) :
    ∃ c, (stripChars l).head? = some c ∧ c.isWhitespace = false := by
  have hstrip : stripChars l = dropTrailingWs (l.dropWhile Char.isWhitespace) := rfl
  cases hy : l.dropWhile Char.isWhitespace with
  | nil =>
    rw [hstrip, hy] at h
    exact absurd rfl h
  | cons a y' =>
    rcases dropTrailingWs_head? a y' with h0 | h0
    · rw [hstrip, hy] at h
      exact absurd h0 h
    · refine ⟨a, ?_, ?_⟩
      · rw [hstrip, hy]
        exact h0
      · exact dropWhile_head?_false Char.isWhitespace l a (by rw [hy]; rfl)

/-- C7.  Section-flattening hygiene: every flattened section row has
non-empty, non-all-whitespace text (blank cells are dropped), and its
section name is never the join-helper column
`program_stream_id_extracted`. -/
theorem section_hygiene (t : XTable) :
    ∀ row ∈ sectionRowsOf t,
      row.2.2 ≠ "" ∧ (∃ c ∈ row.2.2.data, c.isWhitespace = false) ∧
      row.2.1 ≠ "program_stream_id_extracted" := by
  intro row hrow
  unfold sectionRowsOf at hrow
  rcases List.mem_flatten.mp hrow with ⟨l, hl, hrl⟩
  rcases List.mem_map.mp hl with ⟨r, _, rfl⟩
  unfold rowSections at hrl
  cases hpd : r.program_description_id with
  | none =>
    rw [hpd] at hrl
    cases hrl
  | some pdid =>
    rw [hpd] at hrl
    rcases List.mem_filterMap.mp hrl with ⟨c, hc, hcv⟩
    cases hg : getCell r c with
    | none =>
      rw [hg] at hcv
      cases hcv
    | some v =>
      rw [hg] at hcv
      simp only at hcv
      by_cases hemp : pyStrip v = ""
      · rw [if_pos hemp] at hcv
        cases hcv
      · rw [if_neg hemp] at hcv
        obtain rfl : (pdid, c, pyStrip v) = row := Option.some_inj.mp hcv
        refine ⟨hemp, ?_, ?_⟩
        · have hne : stripChars v.data ≠ [] := by
            intro h0
            apply hemp
            unfold pyStrip
            rw [h0]
          rcases stripChars_head_not_ws v.data hne with ⟨c0, hc0, hws⟩
          exact ⟨c0, List.mem_of_mem_head? hc0, hws⟩
        · intro hceq
          unfold sectionCols at hc
          have h2 := (List.mem_filter.mp hc).2
          have hc2 : c = "program_stream_id_extracted" := hceq
          rw [hc2] at h2
          simp [metaCols] at h2

/-- Witness for C7: the concrete flattened row of `tC7` has trimmed
non-blank text and a section name different from the helper column. -/
theorem section_hygiene_witness :
    rowC7.2.2 ≠ "" ∧ (∃ c ∈ rowC7.2.2.data, c.isWhitespace = false) ∧
    rowC7.2.1 ≠ "program_stream_id_extracted" :=
  section_hygiene tC7 rowC7 (by decide)

/-- Taking while a predicate holds passes over a block where it holds
everywhere. -/
theorem takeWhile_append_of_all {p : Char → Bool} :
    ∀ (l1 l2 : List Char), (∀ a ∈ l1, p a = true) →
      (l1 ++ l2).takeWhile p = l1 ++ l2.takeWhile p := by
  intro l1
  induction l1 with
  | nil =>
    intro l2 _
    rfl
  | cons a l ih =>
    intro l2 h
    have ha := h a (List.mem_cons_self a l)
    simp only [List.cons_append, List.takeWhile_cons, ha, if_true]
    rw [ih l2 (fun b hb => h b (List.mem_cons_of_mem a hb))]

/-- Dropping while a predicate holds consumes a block where it holds
everywhere. -/
theorem dropWhile_append_of_all {p : Char → Bool} :
    ∀ (l1 l2 : List Char), (∀ a ∈ l1, p a = true) →
      (l1 ++ l2).dropWhile p = l2.dropWhile p := by
  intro l1
  induction l1 with
  | nil =>
    intro l2 _
    rfl
  | cons a l ih =>
    intro l2 h
    have ha := h a (List.mem_cons_self a l)
    simp only [List.cons_append, List.dropWhile_cons, ha, if_true]
    exact ih l2 (fun b hb => h b (List.mem_cons_of_mem a hb))

/-- No digit is taken from a block of spaces followed by a hyphen. -/
theorem takeWhile_isDigit_spaces_hyphen (w q : List Char)
    (hw : ∀ c ∈ w, c = ' ') :
    ((w ++ '-' :: q).takeWhile Char.isDigit) = [] := by
  cases w with
  | nil =>
    simp [List.takeWhile_cons, show Char.isDigit '-' = false by decide]
  | cons c w' =>
    have hc := hw c (List.mem_cons_self c w')
    subst hc
    simp [List.takeWhile_cons, show Char.isDigit ' ' = false by decide]

/-- No digit is dropped from a block of spaces followed by a hyphen. -/
theorem dropWhile_isDigit_spaces_hyphen (w q : List Char)
    (hw : ∀ c ∈ w, c = ' ') :
    ((w ++ '-' :: q).dropWhile Char.isDigit) = w ++ '-' :: q := by
  cases w with
  | nil =>
    simp [List.dropWhile_cons, show Char.isDigit '-' = false by decide]
  | cons c w' =>
    have hc := hw c (List.mem_cons_self c w')
    subst hc
    simp [List.dropWhile_cons, show Char.isDigit ' ' = false by decide]

/-- Dropping whitespace from a block of spaces stops at the hyphen. -/
theorem dropWhile_ws_spaces (w q : List Char) (hw : ∀ c ∈ w, c = ' ') :
    ((w ++ '-' :: q).dropWhile Char.isWhitespace) = '-' :: q := by
  induction w with
  | nil =>
    simp [List.dropWhile_cons, show Char.isWhitespace '-' = false by decide]
  | cons c w' ih =>
    have hc := hw c (List.mem_cons_self c w')
    subst hc
    simp only [List.cons_append, List.dropWhile_cons,
      show Char.isWhitespace ' ' = true by decide, if_true]
    exact ih (fun b hb => hw b (List.mem_cons_of_mem _ hb))

/-- On a cleaned identifier of the form prefix-hyphen-spaces-digits, the
last-hyphen regex captures exactly the digit run. -/
theorem m2Capture_hyphen_digits (p w d : List Char) (hd : d ≠ [])
    (hdd : ∀ c ∈ d, c.isDigit = true) (hw : ∀ c ∈ w, c = ' ') :
    m2Capture (p ++ '-' :: (w ++ d)) = some d := by
  have hwrev : ∀ c ∈ w.reverse, c = ' ' :=
    fun c hc => hw c (List.mem_reverse.mp hc)
  have hdrev : ∀ c ∈ d.reverse, Char.isDigit c = true :=
    fun c hc => hdd c (List.mem_reverse.mp hc)
  have hrev : (p ++ '-' :: (w ++ d)).reverse =
      d.reverse ++ (w.reverse ++ '-' :: p.reverse) := by
    simp
  have htake : ((p ++ '-' :: (w ++ d)).reverse.takeWhile Char.isDigit) =
      d.reverse := by
    rw [hrev, takeWhile_append_of_all _ _ hdrev,
      takeWhile_isDigit_spaces_hyphen w.reverse p.reverse hwrev,
      List.append_nil]
  have hdrop : ((p ++ '-' :: (w ++ d)).reverse.dropWhile Char.isDigit) =
      w.reverse ++ '-' :: p.reverse := by
    rw [hrev, dropWhile_append_of_all _ _ hdrev,
      dropWhile_isDigit_spaces_hyphen w.reverse p.reverse hwrev]
  have hne : d.reverse.isEmpty = false := by
    cases d with
    | nil => exact absurd rfl hd
    | cons a d' => simp
  unfold m2Capture
  simp only [htake, hdrop, dropWhile_ws_spaces w.reverse p.reverse hwrev, hne]
  simp

/-- Per-row key extraction on a well-formed identifier returns the digits
after the last hyphen. -/
theorem extractDocCell_wellformed (s : String) (v : Nat)
    (h : CleansToHyphenDigits s v) : extractDocCell s = some v := by
  obtain ⟨p, w, d, hclean, hd, hdd, hw, hv⟩ := h
  simp [extractDocCell, hclean, m2Capture_hyphen_digits p w d hd hdd hw, hv]

/-- C5 (amended).  Key extraction correctness: on a nonempty table all of
whose document identifiers clean to `<prefix>-<spaces><digits>` with a
contiguous digit run (BOM injected anywhere; NBSP / whitespace injected
anywhere except interior to the digit run), the extractor accepts strategy
`document_id` and returns, for every row, exactly the digits following the
last hyphen as the canonical id. -/
theorem key_extraction (t : XInput) (f : SrcRow → Nat)
    (hdoc : t.hasDoc = true) (hne : t.rows ≠ [])
    (hall : ∀ r ∈ t.rows, CleansToHyphenDigits r.doc (f r)) :
    extract_program_stream_id t =
      .ok (t.rows.map (fun r => some (f r)), "document_id") := by
  have hmap : t.rows.map (fun r => extractDocCell r.doc) =
      t.rows.map (fun r => some (f r)) :=
    List.map_congr_left (fun r hr => extractDocCell_wellformed _ _ (hall r hr))
  have hcount : countSome (t.rows.map (fun r => some (f r))) = t.rows.length := by
    simp [countSome, List.countP_map, Function.comp]
  have hthr : thresholdFn t.rows.length ≤ t.rows.length := by
    have h1 : 1 ≤ t.rows.length :=
      Nat.succ_le_of_lt (List.length_pos.mpr hne)
    have h2 : 19 * t.rows.length / 20 ≤ t.rows.length := by
      have h3 : 19 * t.rows.length ≤ 20 * t.rows.length :=
        Nat.mul_le_mul_right _ (by omega)
      have h4 : 19 * t.rows.length / 20 ≤ 20 * t.rows.length / 20 :=
        Nat.div_le_div_right h3
      rwa [Nat.mul_div_cancel_left _ (by omega : 0 < 20)] at h4
    exact max_le h1 h2
  unfold extract_program_stream_id
  rw [hdoc]
  simp only [if_true, hmap, hcount]
  rw [if_pos hthr]

/-- Witness for C5 (amended): a concrete identifier `"1503-27447"` with an
injected BOM, an NBSP after the hyphen and surrounding whitespace extracts
to 27447 with method `document_id`. -/
theorem key_extraction_witness :
    extract_program_stream_id tC5W = .ok ([some 27447], "document_id") := by
  have h := key_extraction tC5W (fun _ => 27447) rfl (by decide) ?_
  · simpa using h
  · intro r hr
    have : r = ⟨" ﻿1503- 27447 ", ""⟩ := by
      simpa [tC5W] using hr
    subst this
    exact ⟨"1503".data, [' '], "27447".data, by decide, by decide, by decide,
      by decide, by decide⟩

/-- Counterexample for C5 as stated: the well-formed identifier
`"1503-27447"` with an NBSP injected interior to the digit run is accepted,
but the extractor returns 447 — not the full digits 27447 following the
last hyphen. -/
theorem key_extraction_counterexample :
    extract_program_stream_id xC5bad = .ok ([some 447], "document_id") ∧
    (447 : Nat) ≠ 27447 := by
  constructor
  · rfl
  · decide

/-- C6 (amended).  Acceptance threshold: a strategy is accepted only if the
count of parsed rows reaches `max(1, ⌊0.95·n⌋)` (which for table sizes not
divisible by 20 admits parsed fractions slightly below 95%), and when
neither the document-id strategy nor the source-URL strategy reaches the
threshold the extractor fails with the unresolvable-identifier error and
returns no ids. -/
theorem acceptance_threshold (t : XInput) :
    (∀ out method, extract_program_stream_id t = .ok (out, method) →
      thresholdFn t.rows.length ≤ countSome out) ∧
    ((t.hasDoc = true →
        countSome (t.rows.map (fun r => extractDocCell r.doc)) <
          thresholdFn t.rows.length) →
     (t.hasSrc = true →
        countSome (t.rows.map (fun r => extractSrcCell r.src)) <
          thresholdFn t.rows.length) →
     extract_program_stream_id t = .error extractFailMsg) := by
  constructor
  · intro out method heq
    unfold extract_program_stream_id at heq
    by_cases hd : t.hasDoc = true
    · by_cases hth : thresholdFn t.rows.length ≤
          countSome (t.rows.map (fun r => extractDocCell r.doc))
      · simp [hd, hth] at heq
        obtain ⟨h1, _⟩ := heq
        rw [← h1]
        exact hth
      · by_cases hs : t.hasSrc = true
        · by_cases hth2 : thresholdFn t.rows.length ≤
              countSome (t.rows.map (fun r => extractSrcCell r.src))
          · simp [hd, hth, hs, hth2] at heq
            obtain ⟨h1, _⟩ := heq
            rw [← h1]
            exact hth2
          · simp [hd, hth, hs, hth2] at heq
        · simp [hd, hth, hs] at heq
    · by_cases hs : t.hasSrc = true
      · by_cases hth2 : thresholdFn t.rows.length ≤
            countSome (t.rows.map (fun r => extractSrcCell r.src))
        · simp [hd, hs, hth2] at heq
          obtain ⟨h1, _⟩ := heq
          rw [← h1]
          exact hth2
        · simp [hd, hs, hth2] at heq
      · simp [hd, hs] at heq
  · intro h1 h2
    unfold extract_program_stream_id
    by_cases hd : t.hasDoc = true
    · have hni := not_le.mpr (h1 hd)
      by_cases hs : t.hasSrc = true
      · have hni2 := not_le.mpr (h2 hs)
        simp [hd, hs, hni, hni2]
      · simp [hd, hs, hni]
    · by_cases hs : t.hasSrc = true
      · have hni2 := not_le.mpr (h2 hs)
        simp [hd, hs, hni2]
      · simp [hd, hs]

/-- Witness for C6 (amended): the accepted ten-row table meets the
threshold, and a table failing both strategies raises the
unresolvable-identifier error. -/
theorem acceptance_threshold_witness :
    thresholdFn xC6.rows.length ≤ countSome xC6outs ∧
    extract_program_stream_id xC6fail = .error extractFailMsg :=
  ⟨(acceptance_threshold xC6).1 xC6outs "document_id" (by rfl),
   (acceptance_threshold xC6fail).2 (fun _ => by decide) (fun _ => by decide)⟩

/-- Counterexample for C6 as stated: the ten-row table with nine parseable
identifiers is accepted by the document-id strategy although its parsed
fraction is 9/10 = 90%, strictly below 95% (9·20 < 19·10). -/
theorem acceptance_threshold_counterexample :
    extract_program_stream_id xC6 = .ok (xC6outs, "document_id") ∧
    countSome xC6outs * 20 < 19 * xC6.rows.length := by
  constructor
  · rfl
  · decide

end Carms
